import Mathlib

/-!
# InternetService

A shallow embedding of `src/internet/core/internetservice.cpp` (Clementine).

The C++ object, the `QAction` objects it owns and the observable effects of its
methods (signal emissions, message boxes, clipboard, debug log) are gathered in
one explicit state, `World`; every method is a function on that state.  Toolkit
and collaborator functions whose bodies are outside this file (`tr`,
`IconLoader::Load`, `MergedProxyModel::mapFromSource` / `mimeData`,
`Song::PrettyTitleWithArtist`, the user's answer to `QMessageBox::exec`) are
fields of `Env`.
-/

namespace Clementine

/-! ## Values handled by the service -/

/-- C++ `QModelIndex`: an item position in a model, opaque to this file. -/
abbrev QModelIndex := Nat

/-- C++ `QModelIndexList`. -/
abbrev QModelIndexList := List QModelIndex

/-- C++ `InternetService::AddMode` (declared in internet/core/internetservice.h):
the three enumerators the source names, which are the three insertion modes of
the specification. -/
inductive AddMode
  | AddMode_Append
  | AddMode_Replace
  | AddMode_OpenInNew
  deriving DecidableEq, Repr

/-- C++ `QUrl`: a URL value, represented by its encoded (percent-escaped) text. -/
structure QUrl where
  encoded : String
  deriving DecidableEq, Repr

/-- C++ `QUrl::isEmpty`: the URL has no data. -/
def QUrl.isEmpty (u : QUrl) : Bool := u.encoded.data.isEmpty

/-- C++ `QUrl::toEncoded`, converted to `QString`: the encoded text of the URL. -/
def QUrl.toEncoded (u : QUrl) : String := u.encoded

/-- C++ `QIcon`, held by the resource path or theme key it was built from. -/
structure QIcon where
  key : String
  deriving DecidableEq, Repr

/-- C++ `IconLoader::IconType` (declared in ui/iconloader.h): the source names
`Base`; `other` stands for the enumerators it does not name. -/
inductive IconType
  | Base
  | other (code : Nat)
  deriving DecidableEq, Repr

/-- C++ `QMimeData` base object: its stored formats. -/
structure QMimeData where
  formats : List (String × String)
  deriving DecidableEq, Repr

/-- C++ `MimeData` (core/mimedata.h): the `QMimeData` subclass whose two public
flags `AddItemsToPlaylist` writes. -/
structure MimeData where
  base : QMimeData
  clear_first_ : Bool
  open_in_new_playlist_ : Bool
  deriving DecidableEq, Repr

/-- Dynamic type of the object behind a non-null `QMimeData*`. -/
inductive QMimeDataObject
  | plain (d : QMimeData)
  | mime (m : MimeData)
  deriving DecidableEq, Repr

/-- C++ `QMimeData*`: `none` is the null pointer. -/
abbrev QMimeDataPtr := Option QMimeDataObject

/-- C++ `qobject_cast<MimeData*>(data)`: the object when its dynamic type is
`MimeData`, null otherwise (also for a null argument). -/
def qobject_cast_MimeData : QMimeDataPtr → Option MimeData
  | some (QMimeDataObject.mime m) => some m
  | _ => none

/-- Slots of `InternetService` that the source connects to `triggered()`. -/
inductive Slot
  | AppendToPlaylist
  | ReplacePlaylist
  | OpenInNewPlaylist
  | CopySelectedPlayableItemURL
  deriving DecidableEq, Repr

/-- C++ `QAction` object: icon, text, separator mark and the slots connected to its
`triggered()` signal, in connection order. -/
structure QAction where
  icon : Option QIcon
  text : String
  separator : Bool
  triggered : List Slot
  deriving DecidableEq, Repr

/-- C++ `QAction*`: `none` is `nullptr`, `some h` the object at position `h` of the
action heap. -/
abbrev QActionPtr := Option Nat

/-- C++ `QMessageBox::StandardButton`. -/
inductive StandardButton
  | Ok
  | Cancel
  | Close
  deriving DecidableEq, Repr

/-- C++ `QMessageBox::ButtonRole`. -/
inductive ButtonRole
  | AcceptRole
  | RejectRole
  | ActionRole
  deriving DecidableEq, Repr

/-- Button of a message box. -/
inductive QAbstractButton
  | standard (b : StandardButton)
  | push (text : String) (role : ButtonRole)
  deriving DecidableEq, Repr

/-- C++ `QAbstractButton*` inside one message box: `none` is null, `some i` the
`i`-th button of the box. -/
abbrev QAbstractButtonPtr := Option Nat

/-- C++ `QMessageBox` configuration. -/
structure QMessageBox where
  windowTitle : String
  windowIcon : Option QIcon
  text : String
  buttons : List QAbstractButton
  deriving DecidableEq, Repr

/-- C++ `QMessageBox url_box;` -/
def QMessageBox.new : QMessageBox := ⟨"", none, "", []⟩

/-- C++ `setWindowTitle`. -/
def QMessageBox.setWindowTitle (b : QMessageBox) (title : String) : QMessageBox :=
  { b with windowTitle := title }

/-- C++ `setWindowIcon`. -/
def QMessageBox.setWindowIcon (b : QMessageBox) (icon : QIcon) : QMessageBox :=
  { b with windowIcon := some icon }

/-- C++ `setText`. -/
def QMessageBox.setText (b : QMessageBox) (text : String) : QMessageBox :=
  { b with text := text }

/-- C++ `setStandardButtons`: the standard buttons of the box become exactly the
given ones; added push buttons stay. -/
def QMessageBox.setStandardButtons (b : QMessageBox) (bs : List StandardButton) :
    QMessageBox :=
  { b with buttons := bs.map QAbstractButton.standard ++
      b.buttons.filter (fun x => match x with
        | QAbstractButton.standard _ => false
        | QAbstractButton.push _ _ => true) }

/-- C++ `addButton(text, role)`: appends a push button and returns its pointer. -/
def QMessageBox.addButton (b : QMessageBox) (text : String) (role : ButtonRole) :
    QAbstractButtonPtr × QMessageBox :=
  (some b.buttons.length, { b with buttons := b.buttons ++ [QAbstractButton.push text role] })

/-- Modelled from the spec: `Song` (core/song.h is not part of the sources); the
fields the spec names for a song record. -/
structure Song where
  title : String
  artist : String
  url : QUrl
  deriving DecidableEq, Repr

/-- C++ `InternetModel::Role` (declared in internet/core/internetmodel.h): the
four item roles the source writes; `other` stands for every other role. -/
inductive Role
  | Role_Type
  | Role_SongMetadata
  | Role_PlayBehaviour
  | Role_Url
  | other (code : Nat)
  deriving DecidableEq, Repr

/-- C++ `InternetModel::Type` (declared in internet/core/internetmodel.h): the
source names `Type_Track`; `other` stands for the enumerators it does not
name. -/
inductive ItemType
  | Type_Track
  | other (code : Nat)
  deriving DecidableEq, Repr

/-- C++ `InternetModel::PlayBehaviour` (declared in internet/core/internetmodel.h):
the source names `PlayBehaviour_SingleItem`; `other` stands for the enumerators
it does not name. -/
inductive PlayBehaviour
  | PlayBehaviour_SingleItem
  | other (code : Nat)
  deriving DecidableEq, Repr

/-- C++ `QVariant`, restricted to the kinds of value the source stores. -/
inductive QVariant
  | ofType (t : ItemType)
  | ofPlayBehaviour (p : PlayBehaviour)
  | ofUrl (u : QUrl)
  | ofSong (s : Song)
  deriving DecidableEq, Repr

/-- C++ `QStandardItem`: display text and per-role data. -/
structure QStandardItem where
  text : String
  values : List (Role × QVariant)
  deriving DecidableEq, Repr

/-- C++ `new QStandardItem(text)`. -/
def QStandardItem.new (text : String) : QStandardItem := ⟨text, []⟩

/-- C++ `setData(value, role)`: the value of `role` becomes `value`. -/
def QStandardItem.setData (item : QStandardItem) (value : QVariant) (role : Role) :
    QStandardItem :=
  { item with values := (role, value) :: item.values.filter (fun p => decide (p.1 ≠ role)) }

/-- C++ `data(role)`: the value stored for `role`, if any. -/
def QStandardItem.data (item : QStandardItem) (role : Role) : Option QVariant :=
  (item.values.find? (fun p => decide (p.1 = role))).map Prod.snd

/-! ## Environment and state -/

/-- Functions the source calls whose bodies are outside this file. -/
structure Env where
  /-- C++ `QObject::tr`. -/
  tr : String → String
  /-- C++ `IconLoader::Load`. -/
  IconLoader_Load : String → IconType → QIcon
  /-- C++ `MergedProxyModel::mapFromSource(const QModelIndexList&)`. -/
  mapFromSource : QModelIndexList → QModelIndexList
  /-- C++ `MergedProxyModel::mimeData`. -/
  mimeData : QModelIndexList → QMimeDataPtr
  /-- C++ `Song::PrettyTitleWithArtist`. -/
  PrettyTitleWithArtist : Song → String
  /-- C++ `QMessageBox::exec` followed by `clickedButton`: the button the user
  closed the box with, given how many boxes were shown before and the box. -/
  exec : Nat → QMessageBox → QAbstractButtonPtr

/-- Data members of `InternetService` (`app_` and `model_` are fixed pointers;
what is read through `model()` is in `World` and `Env`). -/
structure InternetService where
  name_ : String
  append_to_playlist_ : QActionPtr
  replace_playlist_ : QActionPtr
  open_in_new_playlist_ : QActionPtr
  copy_selected_playable_item_url_ : QActionPtr
  separator_ : QActionPtr
  selected_playable_item_url_ : QUrl
  deriving DecidableEq, Repr

/-- The service together with everything its methods read or affect. -/
structure World where
  /-- The members of the object. -/
  service : InternetService
  /-- Heap of the `QAction` objects created so far. -/
  actions : List QAction
  /-- C++ `model()->selected_indexes()`. -/
  selected_indexes : QModelIndexList
  /-- Emissions of `AddToPlaylistSignal`, oldest first. -/
  signals : List QMimeDataPtr
  /-- Message boxes executed, with the button that closed each, oldest first. -/
  dialogs : List (QMessageBox × QAbstractButtonPtr)
  /-- Text of the system clipboard. -/
  clipboard : String
  /-- Lines written with `qLog(Debug)`, oldest first; a line is the sequence
  of values streamed into it. -/
  log : List (List String)
  deriving DecidableEq, Repr

/-- C++ `new QAction(...)`: allocates the object and returns its position. -/
def World.newQAction (w : World) (a : QAction) : Nat × World :=
  (w.actions.length, { w with actions := w.actions ++ [a] })

/-- Applies `f` to the action object at position `h`. -/
def World.modifyAction (w : World) (h : Nat) (f : QAction → QAction) : World :=
  { w with actions := w.actions.modify f h }

/-- C++ `action->setSeparator(b)`. -/
def World.setSeparator (w : World) (h : Nat) (b : Bool) : World :=
  w.modifyAction h (fun a => { a with separator := b })

/-- C++ `connect(action, SIGNAL(triggered()), this, SLOT(slot()))`. -/
def World.connect (w : World) (h : Nat) (slot : Slot) : World :=
  w.modifyAction h (fun a => { a with triggered := a.triggered ++ [slot] })

/-! ## The methods of `InternetService` -/

namespace InternetService

/-- The constructor: every action pointer starts null; the selected URL is a
default-constructed `QUrl`. -/
def new (name : String) : InternetService :=
  { name_ := name
    append_to_playlist_ := none
    replace_playlist_ := none
    open_in_new_playlist_ := none
    copy_selected_playable_item_url_ := none
    separator_ := none
    selected_playable_item_url_ := ⟨""⟩ }

/-- C++ `InternetService::ShowUrlBox`. -/
def ShowUrlBox (env : Env) (w : World) (title url : String) : World :=
  let url_box := QMessageBox.new
  let url_box := url_box.setWindowTitle title
  let url_box := url_box.setWindowIcon ⟨":/icon.png"⟩
  let url_box := url_box.setText url
  let url_box := url_box.setStandardButtons [StandardButton.Ok]
  let added := url_box.addButton (env.tr "Copy to clipboard") ButtonRole.ActionRole
  let copy_to_clipboard_button := added.1
  let url_box := added.2
  let clickedButton := env.exec w.dialogs.length url_box
  let w := { w with dialogs := w.dialogs ++ [(url_box, clickedButton)] }
  if clickedButton = copy_to_clipboard_button then
    { w with clipboard := url }
  else
    w

/-- C++ `InternetService::GetAppendToPlaylistAction`. -/
def GetAppendToPlaylistAction (env : Env) (w : World) : QActionPtr × World :=
  match w.service.append_to_playlist_ with
  | some h => (some h, w)
  | none =>
    let r := w.newQAction
      ⟨some (env.IconLoader_Load "media-playback-start" IconType.Base),
        env.tr "Append to current playlist", false, []⟩
    let w := { r.2 with service := { r.2.service with append_to_playlist_ := some r.1 } }
    let w := w.connect r.1 Slot.AppendToPlaylist
    (w.service.append_to_playlist_, w)

/-- C++ `InternetService::GetReplacePlaylistAction`. -/
def GetReplacePlaylistAction (env : Env) (w : World) : QActionPtr × World :=
  match w.service.replace_playlist_ with
  | some h => (some h, w)
  | none =>
    let r := w.newQAction
      ⟨some (env.IconLoader_Load "media-playback-start" IconType.Base),
        env.tr "Replace current playlist", false, []⟩
    let w := { r.2 with service := { r.2.service with replace_playlist_ := some r.1 } }
    let w := w.connect r.1 Slot.ReplacePlaylist
    (w.service.replace_playlist_, w)

/-- C++ `InternetService::GetOpenInNewPlaylistAction`. -/
def GetOpenInNewPlaylistAction (env : Env) (w : World) : QActionPtr × World :=
  match w.service.open_in_new_playlist_ with
  | some h => (some h, w)
  | none =>
    let r := w.newQAction
      ⟨some (env.IconLoader_Load "document-new" IconType.Base),
        env.tr "Open in new playlist", false, []⟩
    let w := { r.2 with service := { r.2.service with open_in_new_playlist_ := some r.1 } }
    let w := w.connect r.1 Slot.OpenInNewPlaylist
    (w.service.open_in_new_playlist_, w)

/-- C++ `InternetService::GetCopySelectedPlayableItemURLAction`. -/
def GetCopySelectedPlayableItemURLAction (env : Env) (w : World) : QActionPtr × World :=
  match w.service.copy_selected_playable_item_url_ with
  | some h => (some h, w)
  | none =>
    let r := w.newQAction
      ⟨some (env.IconLoader_Load "edit-copy" IconType.Base),
        env.tr "Copy URL to clipboard", false, []⟩
    let w := { r.2 with
      service := { r.2.service with copy_selected_playable_item_url_ := some r.1 } }
    let w := w.connect r.1 Slot.CopySelectedPlayableItemURL
    (w.service.copy_selected_playable_item_url_, w)

/-- The `if (!separator_)` block that opens `GetPlaylistActions`. -/
def ensureSeparator (w : World) : World :=
  match w.service.separator_ with
  | some _ => w
  | none =>
    let r := w.newQAction ⟨none, "", false, []⟩
    let w := { r.2 with service := { r.2.service with separator_ := some r.1 } }
    w.setSeparator r.1 true

/-- C++ `InternetService::GetPlaylistActions`; the three accessor calls of the
`<<` chain are taken left to right. -/
def GetPlaylistActions (env : Env) (w : World) : List QActionPtr × World :=
  let w := ensureSeparator w
  let a := GetAppendToPlaylistAction env w
  let r := GetReplacePlaylistAction env a.2
  let o := GetOpenInNewPlaylistAction env r.2
  ([a.1, r.1, o.1, o.2.service.separator_], o.2)

/-- C++ `InternetService::AddItemsToPlaylist`. -/
def AddItemsToPlaylist (env : Env) (w : World) (indexes : QModelIndexList)
    (add_mode : AddMode) : World :=
  let data := env.mimeData (env.mapFromSource indexes)
  let data :=
    match qobject_cast_MimeData data with
    | some mime_data =>
      let mime_data :=
        { mime_data with clear_first_ := decide (add_mode = AddMode.AddMode_Replace) }
      let mime_data :=
        { mime_data with open_in_new_playlist_ := decide (add_mode = AddMode.AddMode_OpenInNew) }
      some (QMimeDataObject.mime mime_data)
    | none => data
  { w with signals := w.signals ++ [data] }

/-- C++ `InternetService::AddItemToPlaylist`. -/
def AddItemToPlaylist (env : Env) (w : World) (index : QModelIndex) (add_mode : AddMode) :
    World :=
  AddItemsToPlaylist env w [index] add_mode

/-- C++ `InternetService::AppendToPlaylist`. -/
def AppendToPlaylist (env : Env) (w : World) : World :=
  AddItemsToPlaylist env w w.selected_indexes AddMode.AddMode_Append

/-- C++ `InternetService::ReplacePlaylist`. -/
def ReplacePlaylist (env : Env) (w : World) : World :=
  AddItemsToPlaylist env w w.selected_indexes AddMode.AddMode_Replace

/-- C++ `InternetService::OpenInNewPlaylist`. -/
def OpenInNewPlaylist (env : Env) (w : World) : World :=
  AddItemsToPlaylist env w w.selected_indexes AddMode.AddMode_OpenInNew

/-- C++ `InternetService::CopySelectedPlayableItemURL`. -/
def CopySelectedPlayableItemURL (env : Env) (w : World) : World :=
  if w.service.selected_playable_item_url_.isEmpty then w
  else
    let url := w.service.selected_playable_item_url_.toEncoded
    let w := { w with log := w.log ++ [["Playable item URL: ", url]] }
    ShowUrlBox env w (env.tr "Copy URL") url

/-- C++ `InternetService::CreateSongItem`. -/
def CreateSongItem (env : Env) (song : Song) : QStandardItem :=
  let item := QStandardItem.new (env.PrettyTitleWithArtist song)
  let item := item.setData (QVariant.ofType ItemType.Type_Track) Role.Role_Type
  let item := item.setData (QVariant.ofSong song) Role.Role_SongMetadata
  let item := item.setData (QVariant.ofPlayBehaviour PlayBehaviour.PlayBehaviour_SingleItem)
    Role.Role_PlayBehaviour
  let item := item.setData (QVariant.ofUrl song.url) Role.Role_Url
  item

/-- Runs one slot of the service. -/
def runSlot (env : Env) (w : World) : Slot → World
  | Slot.AppendToPlaylist => AppendToPlaylist env w
  | Slot.ReplacePlaylist => ReplacePlaylist env w
  | Slot.OpenInNewPlaylist => OpenInNewPlaylist env w
  | Slot.CopySelectedPlayableItemURL => CopySelectedPlayableItemURL env w

/-- Emission of `triggered()` by the action behind `action`: the connected
slots run in connection order. -/
def trigger (env : Env) (w : World) (action : QActionPtr) : World :=
  match action with
  | none => w
  | some h =>
    match w.actions[h]? with
    | none => w
    | some a => a.triggered.foldl (runSlot env) w

/-- One call on the service. -/
inductive Op
  | GetPlaylistActions
  | GetAppendToPlaylistAction
  | GetReplacePlaylistAction
  | GetOpenInNewPlaylistAction
  | GetCopySelectedPlayableItemURLAction
  | AddItemToPlaylist (index : QModelIndex) (add_mode : AddMode)
  | AddItemsToPlaylist (indexes : QModelIndexList) (add_mode : AddMode)
  | AppendToPlaylist
  | ReplacePlaylist
  | OpenInNewPlaylist
  | CopySelectedPlayableItemURL
  | ShowUrlBox (title url : String)
  | CreateSongItem (song : Song)
  | trigger (action : QActionPtr)
  deriving DecidableEq, Repr

/-- State after one call. -/
def step (env : Env) (w : World) : Op → World
  | Op.GetPlaylistActions => (GetPlaylistActions env w).2
  | Op.GetAppendToPlaylistAction => (GetAppendToPlaylistAction env w).2
  | Op.GetReplacePlaylistAction => (GetReplacePlaylistAction env w).2
  | Op.GetOpenInNewPlaylistAction => (GetOpenInNewPlaylistAction env w).2
  | Op.GetCopySelectedPlayableItemURLAction => (GetCopySelectedPlayableItemURLAction env w).2
  | Op.AddItemToPlaylist index add_mode => AddItemToPlaylist env w index add_mode
  | Op.AddItemsToPlaylist indexes add_mode => AddItemsToPlaylist env w indexes add_mode
  | Op.AppendToPlaylist => AppendToPlaylist env w
  | Op.ReplacePlaylist => ReplacePlaylist env w
  | Op.OpenInNewPlaylist => OpenInNewPlaylist env w
  | Op.CopySelectedPlayableItemURL => CopySelectedPlayableItemURL env w
  | Op.ShowUrlBox title url => ShowUrlBox env w title url
  | Op.CreateSongItem _ => w
  | Op.trigger action => trigger env w action

/-- State after a sequence of calls. -/
def run (env : Env) (w : World) (ops : List Op) : World :=
  ops.foldl (step env) w

end InternetService

/-- State right after construction of a service called `name`, in a process
whose model selection is `sel` and whose clipboard holds `clip`. -/
def World.init (name : String) (sel : QModelIndexList) (clip : String) : World :=
  { service := InternetService.new name
    actions := []
    selected_indexes := sel
    signals := []
    dialogs := []
    clipboard := clip
    log := [] }

/-! ## A concrete environment

Used to evaluate the embedding on concrete inputs. -/

/-- A sample environment: no translation, icons named by their key, a merged
view that shifts positions by 1000, an encoder that returns null for no index
and otherwise a `MimeData` with both flags preset, a user who presses the added
button on even-numbered boxes and Ok on odd-numbered ones. -/
def sampleEnv : Env :=
  { tr := fun s => s
    IconLoader_Load := fun name _ => ⟨name⟩
    mapFromSource := fun l => l.map (fun i => i + 1000)
    mimeData := fun l =>
      if l.isEmpty then none
      else some (QMimeDataObject.mime
        ⟨⟨l.map (fun i => ("row", String.mk (List.replicate (i - 1000) '|')))⟩, true, true⟩)
    PrettyTitleWithArtist := fun s =>
      if s.artist.data.isEmpty then s.title else s.artist ++ " - " ++ s.title
    exec := fun n _ => if n % 2 = 0 then some 1 else some 0 }

/-- A sample environment whose encoder returns plain `QMimeData` objects. -/
def plainEnv : Env :=
  { sampleEnv with
    mimeData := fun l => some (QMimeDataObject.plain ⟨l.map (fun _ => ("row", ""))⟩) }

/-- A sample state: a fresh service over a model with rows 1 and 2 selected. -/
def sampleWorld : World := World.init "Sample" [1, 2] "old"

/-! ## Invariant of the action pointers -/

/-- Number of action pointers of the service that are not null. -/
def createdCount (s : InternetService) : Nat :=
  s.append_to_playlist_.isSome.toNat + s.replace_playlist_.isSome.toNat +
    s.open_in_new_playlist_.isSome.toNat + s.copy_selected_playable_item_url_.isSome.toNat +
    s.separator_.isSome.toNat

/-- Every non-null action pointer of the service points to the object its
accessor builds: the icon and text given there, connected to its slot and to
nothing else; the separator pointer points to an action marked as separator.
It holds after construction and every method keeps it. -/
structure WF (env : Env) (w : World) : Prop where
  append : ∀ h, w.service.append_to_playlist_ = some h →
    w.actions[h]? = some ⟨some (env.IconLoader_Load "media-playback-start" IconType.Base),
      env.tr "Append to current playlist", false, [Slot.AppendToPlaylist]⟩
  replace : ∀ h, w.service.replace_playlist_ = some h →
    w.actions[h]? = some ⟨some (env.IconLoader_Load "media-playback-start" IconType.Base),
      env.tr "Replace current playlist", false, [Slot.ReplacePlaylist]⟩
  open_in_new : ∀ h, w.service.open_in_new_playlist_ = some h →
    w.actions[h]? = some ⟨some (env.IconLoader_Load "document-new" IconType.Base),
      env.tr "Open in new playlist", false, [Slot.OpenInNewPlaylist]⟩
  copy_url : ∀ h, w.service.copy_selected_playable_item_url_ = some h →
    w.actions[h]? = some ⟨some (env.IconLoader_Load "edit-copy" IconType.Base),
      env.tr "Copy URL to clipboard", false, [Slot.CopySelectedPlayableItemURL]⟩
  separator : ∀ h, w.service.separator_ = some h →
    w.actions[h]? = some ⟨none, "", true, []⟩

/-- A later state of the same service, as every method produces it: the heap
only grows, a set pointer stays what it is, each allocation sets one pointer,
and `WF` is kept. -/
structure Extends (env : Env) (w w' : World) : Prop where
  heap : ∃ l, w'.actions = w.actions ++ l
  append : ∀ h, w.service.append_to_playlist_ = some h →
    w'.service.append_to_playlist_ = some h
  replace : ∀ h, w.service.replace_playlist_ = some h →
    w'.service.replace_playlist_ = some h
  open_in_new : ∀ h, w.service.open_in_new_playlist_ = some h →
    w'.service.open_in_new_playlist_ = some h
  copy_url : ∀ h, w.service.copy_selected_playable_item_url_ = some h →
    w'.service.copy_selected_playable_item_url_ = some h
  separator : ∀ h, w.service.separator_ = some h → w'.service.separator_ = some h
  count : w'.actions.length + createdCount w.service =
    w.actions.length + createdCount w'.service
  wf : WF env w → WF env w'

/-! ## Adding items to the playlist -/

/-- The payload the encoder returned, tagged as the specification words it:
when it is of the flag-carrying type, `clear_first` becomes `mode == Replace`
and `open_in_new_playlist` becomes `mode == OpenInNew`; any other payload
(null included) is left as it is. -/
def specTagged (add_mode : AddMode) : QMimeDataPtr → QMimeDataPtr
  | some (QMimeDataObject.mime m) =>
    some (QMimeDataObject.mime
      ⟨m.base, decide (add_mode = AddMode.AddMode_Replace),
        decide (add_mode = AddMode.AddMode_OpenInNew)⟩)
  | some (QMimeDataObject.plain d) => some (QMimeDataObject.plain d)
  | none => none

/-- Modelled from the spec: the items a transfer payload carries (the payload is
"an abstraction carrying selected items plus insertion hints"; the payload
classes and `MergedProxyModel::mimeData` are not part of the sources), read off
the payload as its stored entries, one per item, in order.  A null payload
carries no item. -/
def encodedItems : QMimeDataPtr → List (String × String)
  | none => []
  | some (QMimeDataObject.plain d) => d.formats
  | some (QMimeDataObject.mime m) => m.base.formats

/-- Modelled from the spec: the contract of `MergedProxyModel::mapFromSource` and
`MergedProxyModel::mimeData`, whose bodies (core/mergedproxymodel.cpp) are not
part of the sources.  The merged-view translation takes an ordered sequence of
indices to the ordered sequence of their translations, and the encoder builds a
payload "encoding indices [i1,i2] (order preserved)": one item per index it is
given, in the order given, so that an empty selection "produces an empty
payload".  `translate` is the translation of one index and `entry` the item
encoded for one index. -/
structure SpecEncoder (env : Env) (translate : QModelIndex → QModelIndex)
    (entry : QModelIndex → String × String) : Prop where
  mapFromSource : ∀ l : QModelIndexList, env.mapFromSource l = l.map translate
  mimeData : ∀ l : QModelIndexList, encodedItems (env.mimeData l) = l.map entry

/-- The code's tagging step agrees with `specTagged` on every payload. -/
theorem AddItemsToPlaylist_eq (env : Env) (w : World) (indexes : QModelIndexList)
    (add_mode : AddMode) :
    InternetService.AddItemsToPlaylist env w indexes add_mode =
      { w with signals :=
          w.signals ++ [specTagged add_mode (env.mimeData (env.mapFromSource indexes))] } := by
  unfold InternetService.AddItemsToPlaylist
  rcases h : env.mimeData (env.mapFromSource indexes) with _ | ⟨d | m⟩ <;>
    simp [qobject_cast_MimeData, specTagged]

/-- C1: when the encoder returns a flag-carrying payload `m`, the one payload
`AddItemsToPlaylist` emits is `m` with `clear_first` true exactly for Replace and
`open_in_new_playlist` true exactly for OpenInNew, whatever `m` held in those
fields: (false, false) for Append, (true, false) for Replace, (false, true) for
OpenInNew. -/
theorem C1_flags_follow_mode (env : Env) (w : World) (indexes : QModelIndexList)
    (add_mode : AddMode) (m : MimeData)
    (h : env.mimeData (env.mapFromSource indexes) = some (QMimeDataObject.mime m)) :
    ∃ m' : MimeData,
      (InternetService.AddItemsToPlaylist env w indexes add_mode).signals =
        w.signals ++ [some (QMimeDataObject.mime m')] ∧
      m'.base = m.base ∧
      (m'.clear_first_ = true ↔ add_mode = AddMode.AddMode_Replace) ∧
      (m'.open_in_new_playlist_ = true ↔ add_mode = AddMode.AddMode_OpenInNew) ∧
      (m'.clear_first_, m'.open_in_new_playlist_) =
        (match add_mode with
          | AddMode.AddMode_Append => (false, false)
          | AddMode.AddMode_Replace => (true, false)
          | AddMode.AddMode_OpenInNew => (false, true)) := by
  refine ⟨⟨m.base, decide (add_mode = AddMode.AddMode_Replace),
    decide (add_mode = AddMode.AddMode_OpenInNew)⟩, ?_, rfl, ?_, ?_, ?_⟩
  · rw [AddItemsToPlaylist_eq, h]; rfl
  · simp
  · simp
  · cases add_mode <;> rfl

/-- C1 at a concrete input: the sample encoder presets both flags to true for
rows 1 and 2; under Replace the emitted payload carries (true, false). -/
theorem C1_flags_follow_mode_witness :
    sampleEnv.mimeData (sampleEnv.mapFromSource [1, 2]) =
        some (QMimeDataObject.mime ⟨⟨[("row", "|"), ("row", "||")]⟩, true, true⟩) ∧
      ∃ m' : MimeData,
        (InternetService.AddItemsToPlaylist sampleEnv sampleWorld [1, 2]
            AddMode.AddMode_Replace).signals =
          sampleWorld.signals ++ [some (QMimeDataObject.mime m')] ∧
        m'.base = ⟨[("row", "|"), ("row", "||")]⟩ ∧
        (m'.clear_first_ = true ↔ AddMode.AddMode_Replace = AddMode.AddMode_Replace) ∧
        (m'.open_in_new_playlist_ = true ↔
          AddMode.AddMode_Replace = AddMode.AddMode_OpenInNew) ∧
        (m'.clear_first_, m'.open_in_new_playlist_) = (true, false) :=
  ⟨by decide,
    C1_flags_follow_mode sampleEnv sampleWorld [1, 2] AddMode.AddMode_Replace
      ⟨⟨[("row", "|"), ("row", "||")]⟩, true, true⟩ (by decide)⟩

/-- Tagging the two flags leaves the items a payload carries as they are. -/
theorem encodedItems_specTagged (add_mode : AddMode) (data : QMimeDataPtr) :
    encodedItems (specTagged add_mode data) = encodedItems data := by
  rcases data with _ | ⟨d | m⟩ <;> rfl

/-- The sample environment meets the contract of the encoder: positions are
shifted one by one and each row gives one entry. -/
theorem sampleEnv_specEncoder :
    SpecEncoder sampleEnv (fun i => i + 1000)
      (fun i => ("row", String.mk (List.replicate (i - 1000) '|'))) := by
  refine ⟨fun l => rfl, fun l => ?_⟩
  cases l with
  | nil => rfl
  | cons x xs => rfl

/-- C2: for every list of indices and every mode, one call of
`AddItemsToPlaylist` appends exactly one emission to the sink and changes
nothing else, and the emitted payload is the one the encoder `mimeData` built
from `mapFromSource` of the given indices, with only the two flags tagged.
Against the contract of the two absent collaborators (`SpecEncoder`), that
payload carries exactly one item per given index, in the given order, each the
item of the index's merged-view translation; for the empty list the one payload
submitted carries zero items. -/
theorem C2_one_payload_from_encoder (env : Env) (w : World) (indexes : QModelIndexList)
    (add_mode : AddMode) :
    InternetService.AddItemsToPlaylist env w indexes add_mode =
        { w with signals :=
            w.signals ++ [specTagged add_mode (env.mimeData (env.mapFromSource indexes))] } ∧
      (InternetService.AddItemsToPlaylist env w indexes add_mode).signals.length =
        w.signals.length + 1 ∧
      (∀ (translate : QModelIndex → QModelIndex) (entry : QModelIndex → String × String),
        SpecEncoder env translate entry →
          (∃ data : QMimeDataPtr,
            (InternetService.AddItemsToPlaylist env w indexes add_mode).signals =
              w.signals ++ [data] ∧
            encodedItems data = indexes.map (fun i => entry (translate i)) ∧
            (encodedItems data).length = indexes.length) ∧
          (∃ data : QMimeDataPtr,
            (InternetService.AddItemsToPlaylist env w [] add_mode).signals =
              w.signals ++ [data] ∧
            encodedItems data = [] ∧
            (encodedItems data).length = 0)) := by
  refine ⟨AddItemsToPlaylist_eq env w indexes add_mode, ?_, ?_⟩
  · rw [AddItemsToPlaylist_eq]; simp
  · intro translate entry hc
    refine ⟨⟨specTagged add_mode (env.mimeData (env.mapFromSource indexes)), ?_, ?_, ?_⟩,
      ⟨specTagged add_mode (env.mimeData (env.mapFromSource [])), ?_, ?_, ?_⟩⟩
    · rw [AddItemsToPlaylist_eq]
    · rw [encodedItems_specTagged, hc.mapFromSource, hc.mimeData, List.map_map]
      rfl
    · rw [encodedItems_specTagged, hc.mapFromSource, hc.mimeData]
      simp
    · rw [AddItemsToPlaylist_eq]
    · rw [encodedItems_specTagged, hc.mapFromSource, hc.mimeData]
      rfl
    · rw [encodedItems_specTagged, hc.mapFromSource, hc.mimeData]
      rfl

/-- C2 at concrete inputs: in the sample environment, which meets the contract,
the call on no index under Append submits one payload with zero items, and the
call on rows 1 and 2 under Replace submits one payload with the two rows in
order, tagged (true, false). -/
theorem C2_one_payload_from_encoder_witness :
    SpecEncoder sampleEnv (fun i => i + 1000)
        (fun i => ("row", String.mk (List.replicate (i - 1000) '|'))) ∧
      (∃ data : QMimeDataPtr,
        (InternetService.AddItemsToPlaylist sampleEnv sampleWorld [] AddMode.AddMode_Append).signals =
          sampleWorld.signals ++ [data] ∧
        encodedItems data = [] ∧
        (encodedItems data).length = 0) ∧
      (InternetService.AddItemsToPlaylist sampleEnv sampleWorld [] AddMode.AddMode_Append).signals =
        [none] ∧
      (InternetService.AddItemsToPlaylist sampleEnv sampleWorld [1, 2]
          AddMode.AddMode_Replace).signals =
        [some (QMimeDataObject.mime ⟨⟨[("row", "|"), ("row", "||")]⟩, true, false⟩)] ∧
      encodedItems (some (QMimeDataObject.mime ⟨⟨[("row", "|"), ("row", "||")]⟩, true, false⟩)) =
        [("row", "|"), ("row", "||")] :=
  ⟨sampleEnv_specEncoder,
    ((C2_one_payload_from_encoder sampleEnv sampleWorld [] AddMode.AddMode_Append).2.2
      (fun i => i + 1000) (fun i => ("row", String.mk (List.replicate (i - 1000) '|')))
      sampleEnv_specEncoder).2,
    by decide, by decide, by decide⟩

/-- C8: when the encoder's payload is not of the flag-carrying type (a plain
`QMimeData`, or null), `AddItemsToPlaylist` returns normally, and its only
effect is one emission of that payload, unmodified. -/
theorem C8_incompatible_payload_passes_through (env : Env) (w : World)
    (indexes : QModelIndexList) (add_mode : AddMode)
    (h : qobject_cast_MimeData (env.mimeData (env.mapFromSource indexes)) = none) :
    InternetService.AddItemsToPlaylist env w indexes add_mode =
      { w with signals := w.signals ++ [env.mimeData (env.mapFromSource indexes)] } := by
  unfold InternetService.AddItemsToPlaylist
  simp [h]

/-- C8 at concrete inputs: a plain payload for rows 1 and 2 under Replace, and a
null payload for no row; both are emitted once, as the encoder returned them. -/
theorem C8_incompatible_payload_passes_through_witness :
    (InternetService.AddItemsToPlaylist plainEnv sampleWorld [1, 2] AddMode.AddMode_Replace =
        { sampleWorld with
          signals := [some (QMimeDataObject.plain ⟨[("row", ""), ("row", "")]⟩)] }) ∧
      (InternetService.AddItemsToPlaylist sampleEnv sampleWorld [] AddMode.AddMode_OpenInNew =
        { sampleWorld with signals := [none] }) :=
  ⟨C8_incompatible_payload_passes_through plainEnv sampleWorld [1, 2]
      AddMode.AddMode_Replace (by decide),
    C8_incompatible_payload_passes_through sampleEnv sampleWorld []
      AddMode.AddMode_OpenInNew (by decide)⟩

/-! ## The URL box and the copy-URL slot -/

/-- What `ShowUrlBox` does, in one equation: it executes one box with the given
title and text, the Ok button and the added copy button, and sets the clipboard
to the text exactly when the added button closed the box. -/
theorem ShowUrlBox_eq (env : Env) (w : World) (title url : String) :
    InternetService.ShowUrlBox env w title url =
      { w with
        dialogs := w.dialogs ++
          [(⟨title, some ⟨":/icon.png"⟩, url,
              [QAbstractButton.standard StandardButton.Ok,
                QAbstractButton.push (env.tr "Copy to clipboard") ButtonRole.ActionRole]⟩,
            env.exec w.dialogs.length
              ⟨title, some ⟨":/icon.png"⟩, url,
                [QAbstractButton.standard StandardButton.Ok,
                  QAbstractButton.push (env.tr "Copy to clipboard") ButtonRole.ActionRole]⟩)]
        clipboard :=
          if env.exec w.dialogs.length
              ⟨title, some ⟨":/icon.png"⟩, url,
                [QAbstractButton.standard StandardButton.Ok,
                  QAbstractButton.push (env.tr "Copy to clipboard") ButtonRole.ActionRole]⟩ = some 1
          then url else w.clipboard } := by
  simp only [InternetService.ShowUrlBox, QMessageBox.new, QMessageBox.setWindowTitle,
    QMessageBox.setWindowIcon, QMessageBox.setText, QMessageBox.setStandardButtons,
    QMessageBox.addButton, List.map, List.filter, List.append_nil, List.length_cons,
    List.length_nil, List.nil_append, List.cons_append, List.singleton_append, zero_add]
  split <;> rfl

/-- C10: for every title and URL string, `ShowUrlBox` executes exactly one box,
whose window title is the title and whose text is the URL, with an Ok button and
the added copy-to-clipboard button; afterwards the clipboard holds exactly the
URL when the added button closed the box and is unchanged when anything else
did; exactly one of the two happens, nothing else of the state changes, and the
function returns no value besides the state. -/
theorem C10_show_url_box (env : Env) (w : World) (title url : String) :
    ∃ (box : QMessageBox) (clicked : QAbstractButtonPtr),
      (InternetService.ShowUrlBox env w title url).dialogs = w.dialogs ++ [(box, clicked)] ∧
      box.windowTitle = title ∧ box.text = url ∧
      box.buttons = [QAbstractButton.standard StandardButton.Ok,
        QAbstractButton.push (env.tr "Copy to clipboard") ButtonRole.ActionRole] ∧
      clicked = env.exec w.dialogs.length box ∧
      ((clicked = some 1 ∧ (InternetService.ShowUrlBox env w title url).clipboard = url) ∨
        (clicked ≠ some 1 ∧
          (InternetService.ShowUrlBox env w title url).clipboard = w.clipboard)) ∧
      ¬ (clicked = some 1 ∧ clicked ≠ some 1) ∧
      (InternetService.ShowUrlBox env w title url).service = w.service ∧
      (InternetService.ShowUrlBox env w title url).actions = w.actions ∧
      (InternetService.ShowUrlBox env w title url).signals = w.signals ∧
      (InternetService.ShowUrlBox env w title url).log = w.log ∧
      (InternetService.ShowUrlBox env w title url).selected_indexes = w.selected_indexes := by
  rw [ShowUrlBox_eq]
  refine ⟨_, _, rfl, rfl, rfl, rfl, rfl, ?_, fun h => h.2 h.1, rfl, rfl, rfl, rfl, rfl⟩
  by_cases hc : env.exec w.dialogs.length
      ⟨title, some ⟨":/icon.png"⟩, url,
        [QAbstractButton.standard StandardButton.Ok,
          QAbstractButton.push (env.tr "Copy to clipboard") ButtonRole.ActionRole]⟩ = some 1
  · exact Or.inl ⟨hc, by simp [hc]⟩
  · exact Or.inr ⟨hc, by simp [hc]⟩

/-- C6: with an empty selected URL, `CopySelectedPlayableItemURL` returns the
state it was given: no box is executed, the clipboard is not written, the
members of the service are unchanged. -/
theorem C6_empty_url_is_noop (env : Env) (w : World)
    (h : w.service.selected_playable_item_url_.isEmpty = true) :
    InternetService.CopySelectedPlayableItemURL env w = w ∧
      (InternetService.CopySelectedPlayableItemURL env w).dialogs = w.dialogs ∧
      (InternetService.CopySelectedPlayableItemURL env w).clipboard = w.clipboard ∧
      (InternetService.CopySelectedPlayableItemURL env w).service = w.service := by
  have e : InternetService.CopySelectedPlayableItemURL env w = w := by
    unfold InternetService.CopySelectedPlayableItemURL
    simp [h]
  rw [e]
  exact ⟨rfl, rfl, rfl, rfl⟩

/-- C6 at a concrete input: the freshly constructed sample service has the
default (empty) URL. -/
theorem C6_empty_url_is_noop_witness :
    sampleWorld.service.selected_playable_item_url_.isEmpty = true ∧
      InternetService.CopySelectedPlayableItemURL sampleEnv sampleWorld = sampleWorld ∧
      (InternetService.CopySelectedPlayableItemURL sampleEnv sampleWorld).dialogs = [] ∧
      (InternetService.CopySelectedPlayableItemURL sampleEnv sampleWorld).clipboard = "old" ∧
      (InternetService.CopySelectedPlayableItemURL sampleEnv sampleWorld).service =
        InternetService.new "Sample" :=
  ⟨by decide, C6_empty_url_is_noop sampleEnv sampleWorld (by decide)⟩

/-- C9: for every song, `CreateSongItem` builds an item from the song alone: its
text is the song's `PrettyTitleWithArtist`, its type is Track, its metadata is
the song, its play behaviour is SingleItem and its URL is the song's URL; these
are the only four roles set.  A song with URL `http://x/f.mp3` gives an item
with URL `http://x/f.mp3`. -/
theorem C9_create_song_item (env : Env) (song : Song) :
    (InternetService.CreateSongItem env song).text = env.PrettyTitleWithArtist song ∧
      (InternetService.CreateSongItem env song).data Role.Role_Type =
        some (QVariant.ofType ItemType.Type_Track) ∧
      (InternetService.CreateSongItem env song).data Role.Role_SongMetadata =
        some (QVariant.ofSong song) ∧
      (InternetService.CreateSongItem env song).data Role.Role_PlayBehaviour =
        some (QVariant.ofPlayBehaviour PlayBehaviour.PlayBehaviour_SingleItem) ∧
      (InternetService.CreateSongItem env song).data Role.Role_Url =
        some (QVariant.ofUrl song.url) ∧
      (InternetService.CreateSongItem env song).values.length = 4 ∧
      (InternetService.CreateSongItem env ⟨"Foo", "Bar", ⟨"http://x/f.mp3"⟩⟩).data Role.Role_Url =
        some (QVariant.ofUrl ⟨"http://x/f.mp3"⟩) ∧
      (InternetService.CreateSongItem env ⟨"Foo", "Bar", ⟨"http://x/f.mp3"⟩⟩).data Role.Role_Type =
        some (QVariant.ofType ItemType.Type_Track) := by
  refine ⟨rfl, ?_, ?_, ?_, ?_, ?_, ?_, ?_⟩ <;>
    simp [InternetService.CreateSongItem, QStandardItem.new, QStandardItem.setData,
      QStandardItem.data, List.filter, List.find?]

/-! ## The action accessors -/

/-- Modifying the object just allocated at the end of the heap. -/
theorem modify_length_append (f : QAction → QAction) (l : List QAction) (a : QAction) :
    (l ++ [a]).modify f l.length = l ++ [f a] := by
  induction l with
  | nil => rfl
  | cons x xs ih => simp [List.modify_succ_cons, ih]

/-- A heap position in use keeps its object when the heap grows. -/
theorem getElem?_append_of_some (l l' : List QAction) (h : Nat) (a : QAction)
    (e : l[h]? = some a) : (l ++ l')[h]? = some a := by
  have hlt : h < l.length := by
    by_contra hge
    rw [List.getElem?_eq_none (by omega)] at e
    exact Option.noConfusion e
  rw [List.getElem?_append_left hlt, e]

/-- The accessor on a null pointer: one allocation, one connection. -/
theorem GetAppendToPlaylistAction_none (env : Env) (w : World)
    (h : w.service.append_to_playlist_ = none) :
    InternetService.GetAppendToPlaylistAction env w =
      (some w.actions.length,
        { w with
          service := { w.service with append_to_playlist_ := some w.actions.length }
          actions := w.actions ++
            [⟨some (env.IconLoader_Load "media-playback-start" IconType.Base),
              env.tr "Append to current playlist", false, [Slot.AppendToPlaylist]⟩] }) := by
  simp [InternetService.GetAppendToPlaylistAction, h, World.newQAction, World.connect,
    World.modifyAction, modify_length_append]

/-- The accessor on a set pointer returns it and does nothing. -/
theorem GetAppendToPlaylistAction_some (env : Env) (w : World) (p : Nat)
    (h : w.service.append_to_playlist_ = some p) :
    InternetService.GetAppendToPlaylistAction env w = (some p, w) := by
  simp [InternetService.GetAppendToPlaylistAction, h]

/-- The accessor on a null pointer: one allocation, one connection. -/
theorem GetReplacePlaylistAction_none (env : Env) (w : World)
    (h : w.service.replace_playlist_ = none) :
    InternetService.GetReplacePlaylistAction env w =
      (some w.actions.length,
        { w with
          service := { w.service with replace_playlist_ := some w.actions.length }
          actions := w.actions ++
            [⟨some (env.IconLoader_Load "media-playback-start" IconType.Base),
              env.tr "Replace current playlist", false, [Slot.ReplacePlaylist]⟩] }) := by
  simp [InternetService.GetReplacePlaylistAction, h, World.newQAction, World.connect,
    World.modifyAction, modify_length_append]

/-- The accessor on a set pointer returns it and does nothing. -/
theorem GetReplacePlaylistAction_some (env : Env) (w : World) (p : Nat)
    (h : w.service.replace_playlist_ = some p) :
    InternetService.GetReplacePlaylistAction env w = (some p, w) := by
  simp [InternetService.GetReplacePlaylistAction, h]

/-- The accessor on a null pointer: one allocation, one connection. -/
theorem GetOpenInNewPlaylistAction_none (env : Env) (w : World)
    (h : w.service.open_in_new_playlist_ = none) :
    InternetService.GetOpenInNewPlaylistAction env w =
      (some w.actions.length,
        { w with
          service := { w.service with open_in_new_playlist_ := some w.actions.length }
          actions := w.actions ++
            [⟨some (env.IconLoader_Load "document-new" IconType.Base),
              env.tr "Open in new playlist", false, [Slot.OpenInNewPlaylist]⟩] }) := by
  simp [InternetService.GetOpenInNewPlaylistAction, h, World.newQAction, World.connect,
    World.modifyAction, modify_length_append]

/-- The accessor on a set pointer returns it and does nothing. -/
theorem GetOpenInNewPlaylistAction_some (env : Env) (w : World) (p : Nat)
    (h : w.service.open_in_new_playlist_ = some p) :
    InternetService.GetOpenInNewPlaylistAction env w = (some p, w) := by
  simp [InternetService.GetOpenInNewPlaylistAction, h]

/-- The accessor on a null pointer: one allocation, one connection. -/
theorem GetCopySelectedPlayableItemURLAction_none (env : Env) (w : World)
    (h : w.service.copy_selected_playable_item_url_ = none) :
    InternetService.GetCopySelectedPlayableItemURLAction env w =
      (some w.actions.length,
        { w with
          service :=
            { w.service with copy_selected_playable_item_url_ := some w.actions.length }
          actions := w.actions ++
            [⟨some (env.IconLoader_Load "edit-copy" IconType.Base),
              env.tr "Copy URL to clipboard", false, [Slot.CopySelectedPlayableItemURL]⟩] }) := by
  simp [InternetService.GetCopySelectedPlayableItemURLAction, h, World.newQAction,
    World.connect, World.modifyAction, modify_length_append]

/-- The accessor on a set pointer returns it and does nothing. -/
theorem GetCopySelectedPlayableItemURLAction_some (env : Env) (w : World) (p : Nat)
    (h : w.service.copy_selected_playable_item_url_ = some p) :
    InternetService.GetCopySelectedPlayableItemURLAction env w = (some p, w) := by
  simp [InternetService.GetCopySelectedPlayableItemURLAction, h]

/-- The separator block on a null pointer: one allocation, marked separator. -/
theorem ensureSeparator_none (w : World) (h : w.service.separator_ = none) :
    InternetService.ensureSeparator w =
      { w with
        service := { w.service with separator_ := some w.actions.length }
        actions := w.actions ++ [⟨none, "", true, []⟩] } := by
  simp [InternetService.ensureSeparator, h, World.newQAction, World.setSeparator,
    World.modifyAction, modify_length_append]

/-- The separator block on a set pointer does nothing. -/
theorem ensureSeparator_some (w : World) (p : Nat) (h : w.service.separator_ = some p) :
    InternetService.ensureSeparator w = w := by
  simp [InternetService.ensureSeparator, h]

/-! ## Every method extends the state -/

/-- A state extends itself. -/
theorem Extends.refl (env : Env) (w : World) : Extends env w w :=
  ⟨⟨[], by simp⟩, fun _ h => h, fun _ h => h, fun _ h => h, fun _ h => h, fun _ h => h,
    rfl, fun h => h⟩

/-- Extension composes. -/
theorem Extends.trans {env : Env} {w₁ w₂ w₃ : World} (h₁ : Extends env w₁ w₂)
    (h₂ : Extends env w₂ w₃) : Extends env w₁ w₃ := by
  obtain ⟨l₁, e₁⟩ := h₁.heap
  obtain ⟨l₂, e₂⟩ := h₂.heap
  refine ⟨⟨l₁ ++ l₂, by rw [e₂, e₁, List.append_assoc]⟩,
    fun h e => h₂.append h (h₁.append h e), fun h e => h₂.replace h (h₁.replace h e),
    fun h e => h₂.open_in_new h (h₁.open_in_new h e),
    fun h e => h₂.copy_url h (h₁.copy_url h e),
    fun h e => h₂.separator h (h₁.separator h e), ?_, fun h => h₂.wf (h₁.wf h)⟩
  have c₁ := h₁.count
  have c₂ := h₂.count
  omega

/-- A method that touches neither the members nor the heap extends the state. -/
theorem Extends.of_eq (env : Env) (w w' : World) (hs : w'.service = w.service)
    (ha : w'.actions = w.actions) : Extends env w w' := by
  refine ⟨⟨[], by simp [ha]⟩, ?_, ?_, ?_, ?_, ?_, by rw [hs, ha], ?_⟩
  · intro h e; rw [hs]; exact e
  · intro h e; rw [hs]; exact e
  · intro h e; rw [hs]; exact e
  · intro h e; rw [hs]; exact e
  · intro h e; rw [hs]; exact e
  · intro hw
    exact ⟨by rw [hs, ha]; exact hw.append, by rw [hs, ha]; exact hw.replace,
      by rw [hs, ha]; exact hw.open_in_new, by rw [hs, ha]; exact hw.copy_url,
      by rw [hs, ha]; exact hw.separator⟩

/-- The append accessor extends the state. -/
theorem Extends.GetAppendToPlaylistAction (env : Env) (w : World) :
    Extends env w (InternetService.GetAppendToPlaylistAction env w).2 := by
  rcases hf : w.service.append_to_playlist_ with _ | p
  · rw [GetAppendToPlaylistAction_none env w hf]
    refine ⟨⟨_, rfl⟩, ?_, fun _ e => e, fun _ e => e, fun _ e => e, fun _ e => e, ?_, ?_⟩
    · intro h e; rw [hf] at e; exact Option.noConfusion e
    · simp [createdCount, hf]; omega
    · intro hw
      refine ⟨?_, ?_, ?_, ?_, ?_⟩
      · intro h e
        simp only [Option.some.injEq] at e
        subst e
        simp
      · intro h e; exact getElem?_append_of_some _ _ _ _ (hw.replace h e)
      · intro h e; exact getElem?_append_of_some _ _ _ _ (hw.open_in_new h e)
      · intro h e; exact getElem?_append_of_some _ _ _ _ (hw.copy_url h e)
      · intro h e; exact getElem?_append_of_some _ _ _ _ (hw.separator h e)
  · rw [GetAppendToPlaylistAction_some env w p hf]
    exact Extends.refl env w

/-- The replace accessor extends the state. -/
theorem Extends.GetReplacePlaylistAction (env : Env) (w : World) :
    Extends env w (InternetService.GetReplacePlaylistAction env w).2 := by
  rcases hf : w.service.replace_playlist_ with _ | p
  · rw [GetReplacePlaylistAction_none env w hf]
    refine ⟨⟨_, rfl⟩, fun _ e => e, ?_, fun _ e => e, fun _ e => e, fun _ e => e, ?_, ?_⟩
    · intro h e; rw [hf] at e; exact Option.noConfusion e
    · simp [createdCount, hf]; omega
    · intro hw
      refine ⟨?_, ?_, ?_, ?_, ?_⟩
      · intro h e; exact getElem?_append_of_some _ _ _ _ (hw.append h e)
      · intro h e
        simp only [Option.some.injEq] at e
        subst e
        simp
      · intro h e; exact getElem?_append_of_some _ _ _ _ (hw.open_in_new h e)
      · intro h e; exact getElem?_append_of_some _ _ _ _ (hw.copy_url h e)
      · intro h e; exact getElem?_append_of_some _ _ _ _ (hw.separator h e)
  · rw [GetReplacePlaylistAction_some env w p hf]
    exact Extends.refl env w

/-- The open-in-new accessor extends the state. -/
theorem Extends.GetOpenInNewPlaylistAction (env : Env) (w : World) :
    Extends env w (InternetService.GetOpenInNewPlaylistAction env w).2 := by
  rcases hf : w.service.open_in_new_playlist_ with _ | p
  · rw [GetOpenInNewPlaylistAction_none env w hf]
    refine ⟨⟨_, rfl⟩, fun _ e => e, fun _ e => e, ?_, fun _ e => e, fun _ e => e, ?_, ?_⟩
    · intro h e; rw [hf] at e; exact Option.noConfusion e
    · simp [createdCount, hf]; omega
    · intro hw
      refine ⟨?_, ?_, ?_, ?_, ?_⟩
      · intro h e; exact getElem?_append_of_some _ _ _ _ (hw.append h e)
      · intro h e; exact getElem?_append_of_some _ _ _ _ (hw.replace h e)
      · intro h e
        simp only [Option.some.injEq] at e
        subst e
        simp
      · intro h e; exact getElem?_append_of_some _ _ _ _ (hw.copy_url h e)
      · intro h e; exact getElem?_append_of_some _ _ _ _ (hw.separator h e)
  · rw [GetOpenInNewPlaylistAction_some env w p hf]
    exact Extends.refl env w

/-- The copy-URL accessor extends the state. -/
theorem Extends.GetCopySelectedPlayableItemURLAction (env : Env) (w : World) :
    Extends env w (InternetService.GetCopySelectedPlayableItemURLAction env w).2 := by
  rcases hf : w.service.copy_selected_playable_item_url_ with _ | p
  · rw [GetCopySelectedPlayableItemURLAction_none env w hf]
    refine ⟨⟨_, rfl⟩, fun _ e => e, fun _ e => e, fun _ e => e, ?_, fun _ e => e, ?_, ?_⟩
    · intro h e; rw [hf] at e; exact Option.noConfusion e
    · simp [createdCount, hf]; omega
    · intro hw
      refine ⟨?_, ?_, ?_, ?_, ?_⟩
      · intro h e; exact getElem?_append_of_some _ _ _ _ (hw.append h e)
      · intro h e; exact getElem?_append_of_some _ _ _ _ (hw.replace h e)
      · intro h e; exact getElem?_append_of_some _ _ _ _ (hw.open_in_new h e)
      · intro h e
        simp only [Option.some.injEq] at e
        subst e
        simp
      · intro h e; exact getElem?_append_of_some _ _ _ _ (hw.separator h e)
  · rw [GetCopySelectedPlayableItemURLAction_some env w p hf]
    exact Extends.refl env w

/-- The separator block extends the state. -/
theorem Extends.ensureSeparator (env : Env) (w : World) :
    Extends env w (InternetService.ensureSeparator w) := by
  rcases hf : w.service.separator_ with _ | p
  · rw [ensureSeparator_none w hf]
    refine ⟨⟨_, rfl⟩, fun _ e => e, fun _ e => e, fun _ e => e, fun _ e => e, ?_, ?_, ?_⟩
    · intro h e; rw [hf] at e; exact Option.noConfusion e
    · simp [createdCount, hf]; omega
    · intro hw
      refine ⟨?_, ?_, ?_, ?_, ?_⟩
      · intro h e; exact getElem?_append_of_some _ _ _ _ (hw.append h e)
      · intro h e; exact getElem?_append_of_some _ _ _ _ (hw.replace h e)
      · intro h e; exact getElem?_append_of_some _ _ _ _ (hw.open_in_new h e)
      · intro h e; exact getElem?_append_of_some _ _ _ _ (hw.copy_url h e)
      · intro h e
        simp only [Option.some.injEq] at e
        subst e
        simp
  · rw [ensureSeparator_some w p hf]
    exact Extends.refl env w

/-- The state `GetPlaylistActions` returns is that of its four steps. -/
theorem GetPlaylistActions_snd (env : Env) (w : World) :
    (InternetService.GetPlaylistActions env w).2 =
      (InternetService.GetOpenInNewPlaylistAction env
        (InternetService.GetReplacePlaylistAction env
          (InternetService.GetAppendToPlaylistAction env
            (InternetService.ensureSeparator w)).2).2).2 := rfl

/-- The list accessor extends the state. -/
theorem Extends.GetPlaylistActions (env : Env) (w : World) :
    Extends env w (InternetService.GetPlaylistActions env w).2 := by
  rw [GetPlaylistActions_snd]
  exact ((Extends.ensureSeparator env w).trans
    (Extends.GetAppendToPlaylistAction env _)).trans
      ((Extends.GetReplacePlaylistAction env _).trans
        (Extends.GetOpenInNewPlaylistAction env _))

/-- Emitting a payload extends the state. -/
theorem Extends.AddItemsToPlaylist (env : Env) (w : World) (indexes : QModelIndexList)
    (add_mode : AddMode) :
    Extends env w (InternetService.AddItemsToPlaylist env w indexes add_mode) := by
  rw [AddItemsToPlaylist_eq]
  exact Extends.of_eq env _ _ rfl rfl

/-- Showing the URL box extends the state. -/
theorem Extends.ShowUrlBox (env : Env) (w : World) (title url : String) :
    Extends env w (InternetService.ShowUrlBox env w title url) := by
  rw [ShowUrlBox_eq]
  exact Extends.of_eq env _ _ rfl rfl

/-- The copy-URL slot extends the state. -/
theorem Extends.CopySelectedPlayableItemURL (env : Env) (w : World) :
    Extends env w (InternetService.CopySelectedPlayableItemURL env w) := by
  unfold InternetService.CopySelectedPlayableItemURL
  split
  · exact Extends.refl env w
  · exact (Extends.of_eq env w
      { w with log := w.log ++
          [["Playable item URL: ", w.service.selected_playable_item_url_.toEncoded]] }
      rfl rfl).trans (Extends.ShowUrlBox env _ _ _)

/-- Every slot extends the state. -/
theorem Extends.runSlot (env : Env) (w : World) (slot : Slot) :
    Extends env w (InternetService.runSlot env w slot) := by
  cases slot
  · exact Extends.AddItemsToPlaylist env w _ _
  · exact Extends.AddItemsToPlaylist env w _ _
  · exact Extends.AddItemsToPlaylist env w _ _
  · exact Extends.CopySelectedPlayableItemURL env w

/-- Running slots one after the other extends the state. -/
theorem Extends.runSlots (env : Env) (slots : List Slot) (w : World) :
    Extends env w (slots.foldl (InternetService.runSlot env) w) := by
  induction slots generalizing w with
  | nil => exact Extends.refl env w
  | cons s ss ih => exact (Extends.runSlot env w s).trans (ih _)

/-- Triggering an action extends the state. -/
theorem Extends.trigger (env : Env) (w : World) (action : QActionPtr) :
    Extends env w (InternetService.trigger env w action) := by
  unfold InternetService.trigger
  split
  · exact Extends.refl env w
  · split
    · exact Extends.refl env w
    · exact Extends.runSlots env _ w

/-- Every call extends the state. -/
theorem Extends.step (env : Env) (w : World) (op : InternetService.Op) :
    Extends env w (InternetService.step env w op) := by
  cases op
  · exact Extends.GetPlaylistActions env w
  · exact Extends.GetAppendToPlaylistAction env w
  · exact Extends.GetReplacePlaylistAction env w
  · exact Extends.GetOpenInNewPlaylistAction env w
  · exact Extends.GetCopySelectedPlayableItemURLAction env w
  · exact Extends.AddItemsToPlaylist env w _ _
  · exact Extends.AddItemsToPlaylist env w _ _
  · exact Extends.AddItemsToPlaylist env w _ _
  · exact Extends.AddItemsToPlaylist env w _ _
  · exact Extends.AddItemsToPlaylist env w _ _
  · exact Extends.CopySelectedPlayableItemURL env w
  · exact Extends.ShowUrlBox env w _ _
  · exact Extends.refl env w
  · exact Extends.trigger env w _

/-- Every sequence of calls extends the state. -/
theorem Extends.run (env : Env) (ops : List InternetService.Op) (w : World) :
    Extends env w (InternetService.run env w ops) := by
  induction ops generalizing w with
  | nil => exact Extends.refl env w
  | cons op ops ih => exact (Extends.step env w op).trans (ih _)

/-- The state after construction satisfies the invariant. -/
theorem WF.init (env : Env) (name : String) (sel : QModelIndexList) (clip : String) :
    WF env (World.init name sel clip) := by
  refine ⟨?_, ?_, ?_, ?_, ?_⟩ <;>
    · intro h e
      exact Option.noConfusion e

/-- Triggering an action connected to exactly one slot runs that slot. -/
theorem trigger_single (env : Env) (w : World) (h : Nat) (a : QAction) (slot : Slot)
    (e : w.actions[h]? = some a) (c : a.triggered = [slot]) :
    InternetService.trigger env w (some h) = InternetService.runSlot env w slot := by
  simp [InternetService.trigger, e, c]

/-- The append accessor returns a non-null pointer, stores it, and the object
behind it is the one `WF` describes. -/
theorem GetAppendToPlaylistAction_spec (env : Env) (w : World) (hw : WF env w) :
    ∃ h,
      (InternetService.GetAppendToPlaylistAction env w).1 = some h ∧
      (InternetService.GetAppendToPlaylistAction env w).2.service.append_to_playlist_ =
        some h ∧
      (InternetService.GetAppendToPlaylistAction env w).2.actions[h]? =
        some ⟨some (env.IconLoader_Load "media-playback-start" IconType.Base),
          env.tr "Append to current playlist", false, [Slot.AppendToPlaylist]⟩ := by
  rcases hf : w.service.append_to_playlist_ with _ | p
  · rw [GetAppendToPlaylistAction_none env w hf]
    exact ⟨_, rfl, rfl, by simp⟩
  · rw [GetAppendToPlaylistAction_some env w p hf]
    exact ⟨p, rfl, hf, hw.append p hf⟩

/-- The replace accessor returns a non-null pointer, stores it, and the object
behind it is the one `WF` describes. -/
theorem GetReplacePlaylistAction_spec (env : Env) (w : World) (hw : WF env w) :
    ∃ h,
      (InternetService.GetReplacePlaylistAction env w).1 = some h ∧
      (InternetService.GetReplacePlaylistAction env w).2.service.replace_playlist_ =
        some h ∧
      (InternetService.GetReplacePlaylistAction env w).2.actions[h]? =
        some ⟨some (env.IconLoader_Load "media-playback-start" IconType.Base),
          env.tr "Replace current playlist", false, [Slot.ReplacePlaylist]⟩ := by
  rcases hf : w.service.replace_playlist_ with _ | p
  · rw [GetReplacePlaylistAction_none env w hf]
    exact ⟨_, rfl, rfl, by simp⟩
  · rw [GetReplacePlaylistAction_some env w p hf]
    exact ⟨p, rfl, hf, hw.replace p hf⟩

/-- The open-in-new accessor returns a non-null pointer, stores it, and the
object behind it is the one `WF` describes. -/
theorem GetOpenInNewPlaylistAction_spec (env : Env) (w : World) (hw : WF env w) :
    ∃ h,
      (InternetService.GetOpenInNewPlaylistAction env w).1 = some h ∧
      (InternetService.GetOpenInNewPlaylistAction env w).2.service.open_in_new_playlist_ =
        some h ∧
      (InternetService.GetOpenInNewPlaylistAction env w).2.actions[h]? =
        some ⟨some (env.IconLoader_Load "document-new" IconType.Base),
          env.tr "Open in new playlist", false, [Slot.OpenInNewPlaylist]⟩ := by
  rcases hf : w.service.open_in_new_playlist_ with _ | p
  · rw [GetOpenInNewPlaylistAction_none env w hf]
    exact ⟨_, rfl, rfl, by simp⟩
  · rw [GetOpenInNewPlaylistAction_some env w p hf]
    exact ⟨p, rfl, hf, hw.open_in_new p hf⟩

/-- The copy-URL accessor returns a non-null pointer, stores it, and the object
behind it is the one `WF` describes. -/
theorem GetCopySelectedPlayableItemURLAction_spec (env : Env) (w : World) (hw : WF env w) :
    ∃ h,
      (InternetService.GetCopySelectedPlayableItemURLAction env w).1 = some h ∧
      (InternetService.GetCopySelectedPlayableItemURLAction env
        w).2.service.copy_selected_playable_item_url_ = some h ∧
      (InternetService.GetCopySelectedPlayableItemURLAction env w).2.actions[h]? =
        some ⟨some (env.IconLoader_Load "edit-copy" IconType.Base),
          env.tr "Copy URL to clipboard", false, [Slot.CopySelectedPlayableItemURL]⟩ := by
  rcases hf : w.service.copy_selected_playable_item_url_ with _ | p
  · rw [GetCopySelectedPlayableItemURLAction_none env w hf]
    exact ⟨_, rfl, rfl, by simp⟩
  · rw [GetCopySelectedPlayableItemURLAction_some env w p hf]
    exact ⟨p, rfl, hf, hw.copy_url p hf⟩

/-- The append accessor returns the pointer it leaves in the member, non-null. -/
theorem GetAppendToPlaylistAction_fst (env : Env) (w : World) :
    ∃ h,
      (InternetService.GetAppendToPlaylistAction env w).1 = some h ∧
      (InternetService.GetAppendToPlaylistAction env w).2.service.append_to_playlist_ =
        some h := by
  rcases hf : w.service.append_to_playlist_ with _ | p
  · rw [GetAppendToPlaylistAction_none env w hf]
    exact ⟨_, rfl, rfl⟩
  · rw [GetAppendToPlaylistAction_some env w p hf]
    exact ⟨p, rfl, hf⟩

/-- The replace accessor returns the pointer it leaves in the member, non-null. -/
theorem GetReplacePlaylistAction_fst (env : Env) (w : World) :
    ∃ h,
      (InternetService.GetReplacePlaylistAction env w).1 = some h ∧
      (InternetService.GetReplacePlaylistAction env w).2.service.replace_playlist_ =
        some h := by
  rcases hf : w.service.replace_playlist_ with _ | p
  · rw [GetReplacePlaylistAction_none env w hf]
    exact ⟨_, rfl, rfl⟩
  · rw [GetReplacePlaylistAction_some env w p hf]
    exact ⟨p, rfl, hf⟩

/-- The open-in-new accessor returns the pointer it leaves in the member,
non-null. -/
theorem GetOpenInNewPlaylistAction_fst (env : Env) (w : World) :
    ∃ h,
      (InternetService.GetOpenInNewPlaylistAction env w).1 = some h ∧
      (InternetService.GetOpenInNewPlaylistAction env w).2.service.open_in_new_playlist_ =
        some h := by
  rcases hf : w.service.open_in_new_playlist_ with _ | p
  · rw [GetOpenInNewPlaylistAction_none env w hf]
    exact ⟨_, rfl, rfl⟩
  · rw [GetOpenInNewPlaylistAction_some env w p hf]
    exact ⟨p, rfl, hf⟩

/-- The copy-URL accessor returns the pointer it leaves in the member,
non-null. -/
theorem GetCopySelectedPlayableItemURLAction_fst (env : Env) (w : World) :
    ∃ h,
      (InternetService.GetCopySelectedPlayableItemURLAction env w).1 = some h ∧
      (InternetService.GetCopySelectedPlayableItemURLAction env
        w).2.service.copy_selected_playable_item_url_ = some h := by
  rcases hf : w.service.copy_selected_playable_item_url_ with _ | p
  · rw [GetCopySelectedPlayableItemURLAction_none env w hf]
    exact ⟨_, rfl, rfl⟩
  · rw [GetCopySelectedPlayableItemURLAction_some env w p hf]
    exact ⟨p, rfl, hf⟩

/-- The separator block leaves a non-null separator pointer. -/
theorem ensureSeparator_sets (w : World) :
    ∃ h, (InternetService.ensureSeparator w).service.separator_ = some h := by
  rcases hf : w.service.separator_ with _ | p
  · rw [ensureSeparator_none w hf]
    exact ⟨_, rfl⟩
  · rw [ensureSeparator_some w p hf]
    exact ⟨p, hf⟩

/-- With its four pointers set, `GetPlaylistActions` returns them in order and
does nothing. -/
theorem GetPlaylistActions_of_set (env : Env) (w : World) (a r o s : Nat)
    (ha : w.service.append_to_playlist_ = some a) (hr : w.service.replace_playlist_ = some r)
    (ho : w.service.open_in_new_playlist_ = some o) (hs : w.service.separator_ = some s) :
    InternetService.GetPlaylistActions env w = ([some a, some r, some o, some s], w) := by
  unfold InternetService.GetPlaylistActions
  simp only [ensureSeparator_some w s hs, GetAppendToPlaylistAction_some env w a ha,
    GetReplacePlaylistAction_some env w r hr, GetOpenInNewPlaylistAction_some env w o ho, hs]

/-! ## The claims on the action handles -/

/-- C3: in every state that satisfies the invariant of the action pointers,
and after any sequence of calls on the service made since the accessor returned
it, triggering the action a `Get...Action` accessor returns runs the matching
mutation on the current selection: `AddItemsToPlaylist(selected_indexes, mode)`
with mode Append, Replace and OpenInNew for the append, replace and open-in-new
actions, and `CopySelectedPlayableItemURL` for the copy-URL action. -/
theorem C3_trigger_runs_matching_mode (env : Env) (w : World) (hw : WF env w)
    (ops : List InternetService.Op) :
    InternetService.trigger env
        (InternetService.run env (InternetService.GetAppendToPlaylistAction env w).2 ops)
        (InternetService.GetAppendToPlaylistAction env w).1 =
      InternetService.AddItemsToPlaylist env
        (InternetService.run env (InternetService.GetAppendToPlaylistAction env w).2 ops)
        (InternetService.run env
          (InternetService.GetAppendToPlaylistAction env w).2 ops).selected_indexes
        AddMode.AddMode_Append ∧
    InternetService.trigger env
        (InternetService.run env (InternetService.GetReplacePlaylistAction env w).2 ops)
        (InternetService.GetReplacePlaylistAction env w).1 =
      InternetService.AddItemsToPlaylist env
        (InternetService.run env (InternetService.GetReplacePlaylistAction env w).2 ops)
        (InternetService.run env
          (InternetService.GetReplacePlaylistAction env w).2 ops).selected_indexes
        AddMode.AddMode_Replace ∧
    InternetService.trigger env
        (InternetService.run env (InternetService.GetOpenInNewPlaylistAction env w).2 ops)
        (InternetService.GetOpenInNewPlaylistAction env w).1 =
      InternetService.AddItemsToPlaylist env
        (InternetService.run env (InternetService.GetOpenInNewPlaylistAction env w).2 ops)
        (InternetService.run env
          (InternetService.GetOpenInNewPlaylistAction env w).2 ops).selected_indexes
        AddMode.AddMode_OpenInNew ∧
    InternetService.trigger env
        (InternetService.run env
          (InternetService.GetCopySelectedPlayableItemURLAction env w).2 ops)
        (InternetService.GetCopySelectedPlayableItemURLAction env w).1 =
      InternetService.CopySelectedPlayableItemURL env
        (InternetService.run env
          (InternetService.GetCopySelectedPlayableItemURLAction env w).2 ops) := by
  refine ⟨?_, ?_, ?_, ?_⟩
  · obtain ⟨h, e1, e2, _⟩ := GetAppendToPlaylistAction_spec env w hw
    have x := Extends.run env ops (InternetService.GetAppendToPlaylistAction env w).2
    have e3 := (x.wf ((Extends.GetAppendToPlaylistAction env w).wf hw)).append h
      (x.append h e2)
    rw [e1, trigger_single env _ h _ Slot.AppendToPlaylist e3 rfl]
    rfl
  · obtain ⟨h, e1, e2, _⟩ := GetReplacePlaylistAction_spec env w hw
    have x := Extends.run env ops (InternetService.GetReplacePlaylistAction env w).2
    have e3 := (x.wf ((Extends.GetReplacePlaylistAction env w).wf hw)).replace h
      (x.replace h e2)
    rw [e1, trigger_single env _ h _ Slot.ReplacePlaylist e3 rfl]
    rfl
  · obtain ⟨h, e1, e2, _⟩ := GetOpenInNewPlaylistAction_spec env w hw
    have x := Extends.run env ops (InternetService.GetOpenInNewPlaylistAction env w).2
    have e3 := (x.wf ((Extends.GetOpenInNewPlaylistAction env w).wf hw)).open_in_new h
      (x.open_in_new h e2)
    rw [e1, trigger_single env _ h _ Slot.OpenInNewPlaylist e3 rfl]
    rfl
  · obtain ⟨h, e1, e2, _⟩ := GetCopySelectedPlayableItemURLAction_spec env w hw
    have x := Extends.run env ops
      (InternetService.GetCopySelectedPlayableItemURLAction env w).2
    have e3 := (x.wf ((Extends.GetCopySelectedPlayableItemURLAction env w).wf hw)).copy_url h
      (x.copy_url h e2)
    rw [e1, trigger_single env _ h _ Slot.CopySelectedPlayableItemURL e3 rfl]
    rfl

/-- C3 at a concrete input: the freshly constructed sample service (rows 1 and 2
selected); triggering its replace action, right away or after an append, emits
the payload of rows 1 and 2 tagged (true, false). -/
theorem C3_trigger_runs_matching_mode_witness :
    WF sampleEnv sampleWorld ∧
      (InternetService.trigger sampleEnv
          (InternetService.GetReplacePlaylistAction sampleEnv sampleWorld).2
          (InternetService.GetReplacePlaylistAction sampleEnv sampleWorld).1 =
        InternetService.AddItemsToPlaylist sampleEnv
          (InternetService.GetReplacePlaylistAction sampleEnv sampleWorld).2
          [1, 2] AddMode.AddMode_Replace) ∧
      (InternetService.trigger sampleEnv
          (InternetService.GetReplacePlaylistAction sampleEnv sampleWorld).2
          (InternetService.GetReplacePlaylistAction sampleEnv sampleWorld).1).signals =
        [some (QMimeDataObject.mime ⟨⟨[("row", "|"), ("row", "||")]⟩, true, false⟩)] ∧
      (InternetService.trigger sampleEnv
          (InternetService.run sampleEnv
            (InternetService.GetReplacePlaylistAction sampleEnv sampleWorld).2
            [InternetService.Op.AppendToPlaylist])
          (InternetService.GetReplacePlaylistAction sampleEnv sampleWorld).1).signals =
        [some (QMimeDataObject.mime ⟨⟨[("row", "|"), ("row", "||")]⟩, false, false⟩),
          some (QMimeDataObject.mime ⟨⟨[("row", "|"), ("row", "||")]⟩, true, false⟩)] :=
  ⟨WF.init sampleEnv "Sample" [1, 2] "old",
    (C3_trigger_runs_matching_mode sampleEnv sampleWorld
      (WF.init sampleEnv "Sample" [1, 2] "old") []).2.1,
    by decide, by decide⟩

/-- C4: for each of the four accessors, from any state and across any sequence
of calls on the service made in between, the second call returns the same
non-null handle as the first and changes nothing (so it creates no handle); no
call turns a set handle pointer back to null or to another handle; every
allocation of an action sets one pointer that was null, so a service has as many
action objects as set pointers, at most five. -/
theorem C4_handles_created_once (env : Env) (w : World) (ops : List InternetService.Op) :
    (∃ h, (InternetService.GetAppendToPlaylistAction env w).1 = some h ∧
      InternetService.GetAppendToPlaylistAction env
          (InternetService.run env (InternetService.GetAppendToPlaylistAction env w).2 ops) =
        (some h,
          InternetService.run env (InternetService.GetAppendToPlaylistAction env w).2 ops)) ∧
    (∃ h, (InternetService.GetReplacePlaylistAction env w).1 = some h ∧
      InternetService.GetReplacePlaylistAction env
          (InternetService.run env (InternetService.GetReplacePlaylistAction env w).2 ops) =
        (some h,
          InternetService.run env (InternetService.GetReplacePlaylistAction env w).2 ops)) ∧
    (∃ h, (InternetService.GetOpenInNewPlaylistAction env w).1 = some h ∧
      InternetService.GetOpenInNewPlaylistAction env
          (InternetService.run env (InternetService.GetOpenInNewPlaylistAction env w).2 ops) =
        (some h,
          InternetService.run env (InternetService.GetOpenInNewPlaylistAction env w).2 ops)) ∧
    (∃ h, (InternetService.GetCopySelectedPlayableItemURLAction env w).1 = some h ∧
      InternetService.GetCopySelectedPlayableItemURLAction env
          (InternetService.run env
            (InternetService.GetCopySelectedPlayableItemURLAction env w).2 ops) =
        (some h,
          InternetService.run env
            (InternetService.GetCopySelectedPlayableItemURLAction env w).2 ops)) ∧
    (∀ (op : InternetService.Op) (h : Nat),
      (w.service.append_to_playlist_ = some h →
        (InternetService.step env w op).service.append_to_playlist_ = some h) ∧
      (w.service.replace_playlist_ = some h →
        (InternetService.step env w op).service.replace_playlist_ = some h) ∧
      (w.service.open_in_new_playlist_ = some h →
        (InternetService.step env w op).service.open_in_new_playlist_ = some h) ∧
      (w.service.copy_selected_playable_item_url_ = some h →
        (InternetService.step env w op).service.copy_selected_playable_item_url_ = some h) ∧
      (w.service.separator_ = some h →
        (InternetService.step env w op).service.separator_ = some h)) ∧
    (∀ op : InternetService.Op,
      (InternetService.step env w op).actions.length + createdCount w.service =
        w.actions.length + createdCount (InternetService.step env w op).service) ∧
    (∀ (name : String) (sel : QModelIndexList) (clip : String),
      (InternetService.run env (World.init name sel clip) ops).actions.length =
          createdCount (InternetService.run env (World.init name sel clip) ops).service ∧
        (InternetService.run env (World.init name sel clip) ops).actions.length ≤ 5) := by
  refine ⟨?_, ?_, ?_, ?_, ?_, ?_, ?_⟩
  · obtain ⟨h, e1, e2⟩ := GetAppendToPlaylistAction_fst env w
    exact ⟨h, e1, GetAppendToPlaylistAction_some env _ h ((Extends.run env ops _).append h e2)⟩
  · obtain ⟨h, e1, e2⟩ := GetReplacePlaylistAction_fst env w
    exact ⟨h, e1, GetReplacePlaylistAction_some env _ h ((Extends.run env ops _).replace h e2)⟩
  · obtain ⟨h, e1, e2⟩ := GetOpenInNewPlaylistAction_fst env w
    exact ⟨h, e1,
      GetOpenInNewPlaylistAction_some env _ h ((Extends.run env ops _).open_in_new h e2)⟩
  · obtain ⟨h, e1, e2⟩ := GetCopySelectedPlayableItemURLAction_fst env w
    exact ⟨h, e1,
      GetCopySelectedPlayableItemURLAction_some env _ h
        ((Extends.run env ops _).copy_url h e2)⟩
  · intro op h
    exact ⟨(Extends.step env w op).append h, (Extends.step env w op).replace h,
      (Extends.step env w op).open_in_new h, (Extends.step env w op).copy_url h,
      (Extends.step env w op).separator h⟩
  · intro op
    exact (Extends.step env w op).count
  · intro name sel clip
    have c := (Extends.run env ops (World.init name sel clip)).count
    have c0 : createdCount (World.init name sel clip).service = 0 := rfl
    have l0 : (World.init name sel clip).actions.length = 0 := rfl
    have b : createdCount
        (InternetService.run env (World.init name sel clip) ops).service ≤ 5 := by
      unfold createdCount
      have t : ∀ b : Bool, b.toNat ≤ 1 := by decide
      have t1 := t (InternetService.run env (World.init name sel clip)
        ops).service.append_to_playlist_.isSome
      have t2 := t (InternetService.run env (World.init name sel clip)
        ops).service.replace_playlist_.isSome
      have t3 := t (InternetService.run env (World.init name sel clip)
        ops).service.open_in_new_playlist_.isSome
      have t4 := t (InternetService.run env (World.init name sel clip)
        ops).service.copy_selected_playable_item_url_.isSome
      have t5 := t (InternetService.run env (World.init name sel clip)
        ops).service.separator_.isSome
      omega
    omega

/-- C5: in every state that satisfies the invariant of the action pointers,
`GetPlaylistActions` returns exactly four non-null handles, in the order append,
replace, open-in-new, separator; the first three are what the three accessors
return afterwards (and what they returned before, when called before); the
fourth points to an action marked as separator; a later call, after any
sequence of calls on the service, returns the same list and changes nothing. -/
theorem C5_playlist_actions_list (env : Env) (w : World) (hw : WF env w) :
    ∃ a r o s : Nat,
      (InternetService.GetPlaylistActions env w).1 = [some a, some r, some o, some s] ∧
      InternetService.GetAppendToPlaylistAction env
          (InternetService.GetPlaylistActions env w).2 =
        (some a, (InternetService.GetPlaylistActions env w).2) ∧
      InternetService.GetReplacePlaylistAction env
          (InternetService.GetPlaylistActions env w).2 =
        (some r, (InternetService.GetPlaylistActions env w).2) ∧
      InternetService.GetOpenInNewPlaylistAction env
          (InternetService.GetPlaylistActions env w).2 =
        (some o, (InternetService.GetPlaylistActions env w).2) ∧
      (∃ act, (InternetService.GetPlaylistActions env w).2.actions[s]? = some act ∧
        act.separator = true) ∧
      (∀ ops : List InternetService.Op,
        InternetService.GetPlaylistActions env
            (InternetService.run env (InternetService.GetPlaylistActions env w).2 ops) =
          ((InternetService.GetPlaylistActions env w).1,
            InternetService.run env (InternetService.GetPlaylistActions env w).2 ops)) ∧
      (InternetService.GetPlaylistActions env
          (InternetService.GetAppendToPlaylistAction env w).2).1[0]? =
        some (InternetService.GetAppendToPlaylistAction env w).1 ∧
      (InternetService.GetPlaylistActions env
          (InternetService.GetReplacePlaylistAction env w).2).1[1]? =
        some (InternetService.GetReplacePlaylistAction env w).1 ∧
      (InternetService.GetPlaylistActions env
          (InternetService.GetOpenInNewPlaylistAction env w).2).1[2]? =
        some (InternetService.GetOpenInNewPlaylistAction env w).1 := by
  obtain ⟨s, hs⟩ := ensureSeparator_sets w
  obtain ⟨a, ha1, ha2⟩ := GetAppendToPlaylistAction_fst env (InternetService.ensureSeparator w)
  obtain ⟨r, hr1, hr2⟩ := GetReplacePlaylistAction_fst env
    (InternetService.GetAppendToPlaylistAction env (InternetService.ensureSeparator w)).2
  obtain ⟨o, ho1, ho2⟩ := GetOpenInNewPlaylistAction_fst env
    (InternetService.GetReplacePlaylistAction env
      (InternetService.GetAppendToPlaylistAction env (InternetService.ensureSeparator w)).2).2
  have xa := Extends.GetAppendToPlaylistAction env (InternetService.ensureSeparator w)
  have xr := Extends.GetReplacePlaylistAction env
    (InternetService.GetAppendToPlaylistAction env (InternetService.ensureSeparator w)).2
  have xo := Extends.GetOpenInNewPlaylistAction env
    (InternetService.GetReplacePlaylistAction env
      (InternetService.GetAppendToPlaylistAction env (InternetService.ensureSeparator w)).2).2
  have fs : (InternetService.GetPlaylistActions env w).2.service.separator_ = some s :=
    xo.separator s (xr.separator s (xa.separator s hs))
  have fa : (InternetService.GetPlaylistActions env w).2.service.append_to_playlist_ =
      some a := xo.append a (xr.append a ha2)
  have fr : (InternetService.GetPlaylistActions env w).2.service.replace_playlist_ =
      some r := xo.replace r hr2
  have fo : (InternetService.GetPlaylistActions env w).2.service.open_in_new_playlist_ =
      some o := ho2
  have l : (InternetService.GetPlaylistActions env w).1 = [some a, some r, some o, some s] := by
    show [_, _, _, _] = _
    rw [ha1, hr1, ho1]
    exact congrArg (fun x => [some a, some r, some o, x]) fs
  refine ⟨a, r, o, s, l, GetAppendToPlaylistAction_some env _ a fa,
    GetReplacePlaylistAction_some env _ r fr, GetOpenInNewPlaylistAction_some env _ o fo,
    ⟨_, ((Extends.GetPlaylistActions env w).wf hw).separator s fs, rfl⟩, ?_, ?_, ?_, ?_⟩
  · intro ops
    have x := Extends.run env ops (InternetService.GetPlaylistActions env w).2
    rw [l]
    exact GetPlaylistActions_of_set env _ a r o s (x.append a fa) (x.replace r fr)
      (x.open_in_new o fo) (x.separator s fs)
  · obtain ⟨p, hp1, hp2⟩ := GetAppendToPlaylistAction_fst env w
    have y := Extends.ensureSeparator env (InternetService.GetAppendToPlaylistAction env w).2
    show some (InternetService.GetAppendToPlaylistAction env _).1 = _
    rw [GetAppendToPlaylistAction_some env _ p (y.append p hp2), hp1]
  · obtain ⟨p, hp1, hp2⟩ := GetReplacePlaylistAction_fst env w
    have y := (Extends.ensureSeparator env
      (InternetService.GetReplacePlaylistAction env w).2).trans
        (Extends.GetAppendToPlaylistAction env _)
    show some (InternetService.GetReplacePlaylistAction env _).1 = _
    rw [GetReplacePlaylistAction_some env _ p (y.replace p hp2), hp1]
  · obtain ⟨p, hp1, hp2⟩ := GetOpenInNewPlaylistAction_fst env w
    have y := ((Extends.ensureSeparator env
      (InternetService.GetOpenInNewPlaylistAction env w).2).trans
        (Extends.GetAppendToPlaylistAction env _)).trans
          (Extends.GetReplacePlaylistAction env _)
    show some (InternetService.GetOpenInNewPlaylistAction env _).1 = _
    rw [GetOpenInNewPlaylistAction_some env _ p (y.open_in_new p hp2), hp1]

/-- C5 at a concrete input: on the freshly constructed sample service the list
is separator-last with the handles in allocation order. -/
theorem C5_playlist_actions_list_witness :
    WF sampleEnv sampleWorld ∧
      (InternetService.GetPlaylistActions sampleEnv sampleWorld).1 =
        [some 1, some 2, some 3, some 0] ∧
      ∃ a r o s : Nat,
        (InternetService.GetPlaylistActions sampleEnv sampleWorld).1 =
          [some a, some r, some o, some s] ∧
        (∃ act, (InternetService.GetPlaylistActions sampleEnv sampleWorld).2.actions[s]? =
          some act ∧ act.separator = true) := by
  refine ⟨WF.init sampleEnv "Sample" [1, 2] "old", by decide, ?_⟩
  obtain ⟨a, r, o, s, h1, _, _, _, h5, _⟩ :=
    C5_playlist_actions_list sampleEnv sampleWorld (WF.init sampleEnv "Sample" [1, 2] "old")
  exact ⟨a, r, o, s, h1, h5⟩

end Clementine
